import Mathlib

/-!
Verification of the `RL2Sampler` trajectory-collection engine
(`src/garage/sampler/rl2_sampler.py`).

The sampler drives `n_envs` parallel environment slots.  At each loop
iteration the policy produces a batch of actions, the vectorized
environment steps once, and the per-slot bookkeeping appends one
transition to each slot's running trajectory, flushing a completed
`Path` into the output batch whenever a slot's `done` flag fires.  The
loop stops once `n_samples` (the total number of flushed transitions)
reaches `batch_size`.

The policy and the vectorized environment are external collaborators of
the sampler; their combined behaviour over time is modelled as a stream
`w : Nat -> List (Transition α)` giving, for loop iteration `t`, the
per-slot transition data `(observation, action, reward, done,
env_info, agent_info)` that the policy/environment pair produces at that
iteration.  Element types of observations, actions, rewards and infos
are opaque to the bookkeeping and are modelled by a type parameter `α`.

Since the loop `while n_samples < batch_size` need not terminate (the
environment may never raise `done`), the loop is given explicit fuel and
returns `none` when the fuel runs out before the budget is met.
-/

namespace Garage

/-- One per-slot transition as delivered by the policy / environment pair
at a single loop iteration: the observation fed to the policy, the action
chosen, the reward, the `done` flag, and the env/agent info entries. -/
structure Transition (α : Type) where
  obs : α
  action : α
  reward : α
  done : Bool
  env_info : α
  agent_info : α
deriving DecidableEq, Repr

/-- The six parallel sequences of a trajectory record.  The same shape is
used for the per-slot running accumulator (`running_paths[idx]`,
lines 152-166 of the source) and for a completed `Path` placed in the
output batch (lines 170-178; `np.asarray`/stacking preserves length and
order, so stacking is the identity on this model). -/
structure PathData (α : Type) where
  observations : List α
  actions : List α
  rewards : List α
  dones : List Bool
  env_infos : List α
  agent_infos : List α
deriving DecidableEq, Repr

/-- The fresh accumulator `dict(observations=[], ...)` of lines 153-160. -/
def emptyPathData (α : Type) : PathData α :=
  { observations := [], actions := [], rewards := [], dones := [],
    env_infos := [], agent_infos := [] }

/-- Appending one transition to each of the six sequences
(lines 161-166 of the source). -/
def appendTransition {α : Type} (p : PathData α) (tr : Transition α) : PathData α :=
  { observations := p.observations ++ [tr.obs],
    actions := p.actions ++ [tr.action],
    rewards := p.rewards ++ [tr.reward],
    dones := p.dones ++ [tr.done],
    env_infos := p.env_infos ++ [tr.env_info],
    agent_infos := p.agent_infos ++ [tr.agent_info] }

/-- The number of transitions of a path, measured as the source does when
it advances the sample budget (`len(running_paths[idx]['rewards'])`,
line 179). -/
def path_length {α : Type} (p : PathData α) : Nat := p.rewards.length

/-- The mutable bookkeeping of `obtain_samples`: the output batch
`paths` (an `OrderedDict` keyed by slot index, modelled as an
association list preserving insertion order), the sample budget
`n_samples`, and the per-slot running accumulators `running_paths`
(a list of length `num_envs` with `None` sentinels). -/
structure SamplerCore (α : Type) where
  paths : List (Nat × List (PathData α))
  n_samples : Nat
  running_paths : List (Option (PathData α))
deriving DecidableEq, Repr

/-- The running accumulator currently held at slot `i`, defaulting to a
fresh empty accumulator when the slot holds `None`
(lines 152-160 of the source). -/
def current_running {α : Type} (c : SamplerCore α) (i : Nat) : PathData α :=
  ((c.running_paths.get? i).getD none).getD (emptyPathData α)

/-- The slot's accumulator after the current transition is appended. -/
def next_running {α : Type} (c : SamplerCore α) (x : Nat × Transition α) : PathData α :=
  appendTransition (current_running c x.1) x.2

/-- Appending a completed path to the batch entry of slot `idx`
(`paths[idx].append(...)`, line 170; an `OrderedDict` update keeps the
key order unchanged). -/
def append_to_slot {α : Type} (ps : List (Nat × List (PathData α))) (idx : Nat)
    (p : PathData α) : List (Nat × List (PathData α)) :=
  ps.map (fun e => if e.1 = idx then (e.1, e.2 ++ [p]) else e)

/-- The body of the per-slot `for` loop, lines 149-180 of the source:
append the transition to the slot's running accumulator; when `done`
fires, flush the accumulator as a completed path to `paths[idx]`, add
its transition count to `n_samples`, and clear the slot. -/
def process_transition {α : Type} (c : SamplerCore α) (x : Nat × Transition α) :
    SamplerCore α :=
  if x.2.done then
    { paths := append_to_slot c.paths x.1 (next_running c x),
      n_samples := c.n_samples + (next_running c x).rewards.length,
      running_paths := c.running_paths.set x.1 none }
  else
    { paths := c.paths,
      n_samples := c.n_samples,
      running_paths := c.running_paths.set x.1 (some (next_running c x)) }

/-- The per-slot `for` loop itself: process the step's transitions in
ascending slot order, mirroring `zip(itertools.count(), obses, actions,
rewards, env_infos, agent_infos, dones)`. -/
def process_all {α : Type} : Nat → List (Transition α) → SamplerCore α → SamplerCore α
  | _, [], c => c
  | i, tr :: rest, c => process_all (i + 1) rest (process_transition c (i, tr))

/-- Observable calls the sampler makes on its collaborators: the single
`policy.reset(dones)` before the loop (line 129), and the per-iteration
`policy.get_actions` (line 134) and `vec_env.step` (line 138). -/
inductive SamplerEvent where
  | policy_reset (mask : List Bool)
  | get_actions (t : Nat)
  | env_step (t : Nat)
deriving DecidableEq, Repr

/-- Recognizer for `policy_reset` events. -/
def is_policy_reset : SamplerEvent → Bool
  | SamplerEvent.policy_reset _ => true
  | _ => false

/-- Full loop state: the bookkeeping plus the trace of collaborator
calls made so far. -/
structure SamplerState (α : Type) where
  core : SamplerCore α
  events : List SamplerEvent
deriving DecidableEq, Repr

/-- One iteration of the `while` loop (lines 131-183): query the policy,
step the vectorized environment (both recorded as events), then run the
per-slot bookkeeping on the transitions of iteration `t`. -/
def run_one_step {α : Type} (w : Nat → List (Transition α)) (t : Nat)
    (st : SamplerState α) : SamplerState α :=
  { core := process_all 0 (w t) st.core,
    events := st.events ++ [SamplerEvent.get_actions t, SamplerEvent.env_step t] }

/-- The state at line 131, just before the `while` loop: `paths` holds an
empty list for every slot index `0..n_envs-1` in ascending order
(lines 113-115), `n_samples = 0` (line 117), every running accumulator is
`None` (line 120), and the policy has been reset once with the all-true
`dones` mask (lines 119 and 129). -/
def init_state (α : Type) (n_envs : Nat) : SamplerState α :=
  { core := { paths := (List.range n_envs).map (fun i => (i, [])),
              n_samples := 0,
              running_paths := List.replicate n_envs none },
    events := [SamplerEvent.policy_reset (List.replicate n_envs true)] }

/-- The `while n_samples < batch_size` loop (line 131), with fuel.  The
returned `Nat` is the number of iterations executed (equivalently, the
position reached in the stream `w`); `none` means the fuel was exhausted
with the budget still unmet. -/
def sample_loop {α : Type} (w : Nat → List (Transition α)) (batch_size : Nat) :
    Nat → Nat → SamplerState α → Option (SamplerState α × Nat)
  | 0, t, st =>
    if st.core.n_samples < batch_size then none else some (st, t)
  | fuel + 1, t, st =>
    if st.core.n_samples < batch_size then
      sample_loop w batch_size fuel (t + 1) (run_one_step w t st)
    else some (st, t)

/-- The default applied when `batch_size` is `None`:
`episode_per_task * algo.max_path_length * n_envs` (lines 110-111). -/
def resolve_batch_size (episode_per_task max_path_length n_envs : Nat) :
    Option Nat → Nat
  | none => episode_per_task * max_path_length * n_envs
  | some b => b

/-- `obtain_samples` up to (but not including) the final
`return paths if whole_paths else truncate_paths(paths, batch_size)`:
the final loop state together with the number of iterations executed. -/
def obtain_samples_run (α : Type) (n_envs episode_per_task max_path_length : Nat)
    (w : Nat → List (Transition α)) (batch_size : Option Nat) (fuel : Nat) :
    Option (SamplerState α × Nat) :=
  sample_loop w (resolve_batch_size episode_per_task max_path_length n_envs batch_size)
    fuel 0 (init_state α n_envs)

/-- Taking the first `k` entries of each of a path's six sequences. -/
def truncate_path {α : Type} (p : PathData α) (k : Nat) : PathData α :=
  { observations := p.observations.take k,
    actions := p.actions.take k,
    rewards := p.rewards.take k,
    dones := p.dones.take k,
    env_infos := p.env_infos.take k,
    agent_infos := p.agent_infos.take k }

/-- Modelled from the spec: the body of `truncate_paths`
(`garage.sampler.utils`), which is imported at line 15 of
`rl2_sampler.py` but whose source file is not among the provided
sources.  Per the spec, truncation walks a slot's path list in order
with the remaining budget, keeps whole paths while they fit, trims the
trailing entries of the first path that overflows the budget, and drops
everything after it (most recently appended paths are removed first).
Returns the kept paths and the budget left over. -/
def truncate_slot {α : Type} : Nat → List (PathData α) → List (PathData α) × Nat
  | b, [] => ([], b)
  | b, p :: ps =>
    if b = 0 then ([], 0)
    else if path_length p ≤ b then
      let r := truncate_slot (b - path_length p) ps
      (p :: r.1, r.2)
    else ([truncate_path p b], 0)

/-- Modelled from the spec: truncation across the batch, processing slots
in index order and threading the remaining budget from one slot to the
next. -/
def truncate_batch {α : Type} : Nat → List (Nat × List (PathData α)) →
    List (Nat × List (PathData α))
  | _, [] => []
  | b, e :: rest =>
    let r := truncate_slot b e.2
    (e.1, r.1) :: truncate_batch r.2 rest

/-- Modelled from the spec: `truncate_paths(paths, batch_size)`
(`garage.sampler.utils`, not among the provided sources) — trim per-slot
path lists and, if necessary, the final included path's trailing
entries, so the total transition count does not exceed the target. -/
def truncate_paths {α : Type} (batch : List (Nat × List (PathData α))) (target : Nat) :
    List (Nat × List (PathData α)) :=
  truncate_batch target batch

/-- The full `obtain_samples(itr, batch_size, whole_paths)` (line 77,
returning at line 191): run the collection loop, then return the batch
as is when `whole_paths` is true and the truncated batch otherwise. -/
def obtain_samples (α : Type) (n_envs episode_per_task max_path_length : Nat)
    (w : Nat → List (Transition α)) (batch_size : Option Nat)
    (whole_paths : Bool) (fuel : Nat) : Option (List (Nat × List (PathData α))) :=
  match obtain_samples_run α n_envs episode_per_task max_path_length w batch_size fuel with
  | none => none
  | some (st, _) =>
    some (if whole_paths then st.core.paths
          else truncate_paths st.core.paths
            (resolve_batch_size episode_per_task max_path_length n_envs batch_size))

/-- In the source the Python default is `whole_paths=True` (line 77). -/
def obtain_samples_default (α : Type) (n_envs episode_per_task max_path_length : Nat)
    (w : Nat → List (Transition α)) (batch_size : Option Nat) (fuel : Nat) :
    Option (List (Nat × List (PathData α))) :=
  obtain_samples α n_envs episode_per_task max_path_length w batch_size true fuel

/-- Total number of transitions across one slot's path list. -/
def slot_count {α : Type} (l : List (PathData α)) : Nat :=
  (l.map path_length).sum

/-- Total number of transitions across the whole batch. -/
def batch_count {α : Type} (b : List (Nat × List (PathData α))) : Nat :=
  (b.map (fun e => slot_count e.2)).sum

/-- Length of an optional running accumulator (0 for a cleared slot). -/
def opt_length {α : Type} : Option (PathData α) → Nat
  | none => 0
  | some p => path_length p

/-- Total number of transitions currently buffered in the running
accumulators (the in-progress, not yet flushed episodes). -/
def running_count {α : Type} (rps : List (Option (PathData α))) : Nat :=
  (rps.map opt_length).sum

/-- Total number of transitions delivered by the stream `w` over the
first `t` loop iterations. -/
def stream_count {α : Type} (w : Nat → List (Transition α)) (t : Nat) : Nat :=
  ((List.range t).map (fun k => (w k).length)).sum

/-- Failure modes of `start_worker` (lines 48-70).  The source guards
its configuration with `assert` (an `AssertionError` at lines 51 and
53); the spec names this failure ConfigurationError, and this model
follows the spec's name.  `zero_division` models the `ZeroDivisionError`
Python raises at `n_envs % meta_batch_size` when `meta_batch_size` is
zero. -/
inductive StartError where
  | configurationError
  | zero_division
deriving DecidableEq, Repr

/-- The result of a successful `start_worker`: the per-slot task
assignment (task index of each slot of the constructed
`VecEnvExecutor`), the `env.seed(...)` calls issued, and the
`max_path_length` passed to the `VecEnvExecutor`. -/
structure StartResult where
  vec_env_slots : List Nat
  seed_calls : List (Nat × Nat)
  max_path_length : Nat
deriving DecidableEq, Repr

/-- The `vec_envs` list of lines 57-62: sample `meta_batch_size` tasks
(modelled by their indices `0..meta_batch_size-1`), and replicate each
task's cloned environment across `envs_per_worker = n_envs /
meta_batch_size` consecutive slots. -/
def start_slots (n_envs meta_batch_size : Nat) : List Nat :=
  ((List.range meta_batch_size).map
    (fun task => List.replicate (n_envs / meta_batch_size) task)).flatten

/-- The seeding loop of lines 63-67: when a global seed is configured,
`e.seed(seed0 + i)` is issued for each slot `i` of `vec_envs` (in
enumeration order); with no global seed no call is made. -/
def start_seed_calls (n_envs meta_batch_size : Nat) (seed0 : Option Nat) :
    List (Nat × Nat) :=
  match seed0 with
  | none => []
  | some s =>
    (List.range (start_slots n_envs meta_batch_size).length).map (fun i => (i, s + i))

/-- `start_worker` (lines 48-70): check `n_envs >= meta_batch_size`
and `n_envs % meta_batch_size == 0`; sample `meta_batch_size` tasks
(modelled by their indices) and replicate each across
`n_envs / meta_batch_size` slots; when a global seed is configured,
seed slot `i` with `seed0 + i`; finally construct the
`VecEnvExecutor`. -/
def start_worker (n_envs meta_batch_size : Nat) (seed0 : Option Nat)
    (mpl : Nat) : Except StartError StartResult :=
  if n_envs < meta_batch_size then Except.error StartError.configurationError
  else if meta_batch_size = 0 then Except.error StartError.zero_division
  else if n_envs % meta_batch_size ≠ 0 then Except.error StartError.configurationError
  else
    Except.ok { vec_env_slots := start_slots n_envs meta_batch_size,
                seed_calls := start_seed_calls n_envs meta_batch_size seed0,
                max_path_length := mpl }

/-- The six sequences of a trajectory record have equal length. -/
def balancedPath {α : Type} (p : PathData α) : Prop :=
  p.observations.length = p.rewards.length ∧
  p.actions.length = p.rewards.length ∧
  p.dones.length = p.rewards.length ∧
  p.env_infos.length = p.rewards.length ∧
  p.agent_infos.length = p.rewards.length

/-- A well-formed completed path: balanced, and its last `done` entry is
`true`. -/
def goodCompleted {α : Type} (p : PathData α) : Prop :=
  balancedPath p ∧ p.dones.getLast? = some true

/-- A well-formed running accumulator: balanced with every `done` entry
`false` (a terminated accumulator is flushed immediately, so `true`
never persists in a running slot). -/
def goodRunning {α : Type} (o : Option (PathData α)) : Prop :=
  ∀ p, o = some p → balancedPath p ∧ p.dones.all (fun d => !d) = true

/-- The structural invariant of the bookkeeping: every running
accumulator and every completed path in the batch is well-formed. -/
def coreBalanced {α : Type} (c : SamplerCore α) : Prop :=
  (∀ o ∈ c.running_paths, goodRunning o) ∧
  (∀ e ∈ c.paths, ∀ p ∈ e.2, goodCompleted p)

/-- The counting invariant: the batch keys are exactly
`0..n_envs-1` in ascending order, the running table has one entry per
slot, and the batch's total transition count equals `n_samples`. -/
def coreCounted {α : Type} (n_envs : Nat) (c : SamplerCore α) : Prop :=
  c.paths.map Prod.fst = List.range n_envs ∧
  c.running_paths.length = n_envs ∧
  batch_count c.paths = c.n_samples

/-- A concrete two-slot behaviour used to exercise the theorems: slot 0
finishes an episode of length 2 at the second iteration, while slot 1
never finishes an episode. -/
def w_ex : Nat → List (Transition Int) := fun t =>
  if t = 0 then
    [{ obs := 0, action := 1, reward := 2, done := false, env_info := 3, agent_info := 4 },
     { obs := 5, action := 6, reward := 7, done := false, env_info := 8, agent_info := 9 }]
  else
    [{ obs := 0, action := 1, reward := 2, done := true, env_info := 3, agent_info := 4 },
     { obs := 5, action := 6, reward := 7, done := false, env_info := 8, agent_info := 9 }]

/-- The final loop state reached by `obtain_samples_run` on `w_ex` with
two slots, `batch_size = 1` and fuel 2: slot 0 contributed one completed
path of length 2, slot 1 still holds a length-2 in-progress episode. -/
def st_ex : SamplerState Int :=
  { core :=
      { paths :=
          [(0, [{ observations := [0, 0], actions := [1, 1], rewards := [2, 2],
                  dones := [false, true], env_infos := [3, 3], agent_infos := [4, 4] }]),
           (1, [])],
        n_samples := 2,
        running_paths :=
          [none,
           some { observations := [5, 5], actions := [6, 6], rewards := [7, 7],
                  dones := [false, false], env_infos := [8, 8], agent_infos := [9, 9] }] },
    events := [SamplerEvent.policy_reset [true, true],
               SamplerEvent.get_actions 0, SamplerEvent.env_step 0,
               SamplerEvent.get_actions 1, SamplerEvent.env_step 1] }

/-- A single-slot behaviour whose first episode has length 2: it ends at
the second iteration. -/
def w_c1 : Nat → List (Transition Int) := fun t =>
  if t = 0 then
    [{ obs := 0, action := 0, reward := 0, done := false, env_info := 0, agent_info := 0 }]
  else
    [{ obs := 0, action := 0, reward := 0, done := true, env_info := 0, agent_info := 0 }]

/-- The batch `obtain_samples` returns on `w_c1` with `batch_size = 1`
and the default `whole_paths=True`: a single path of length 2, so the
total transition count 2 exceeds the requested budget 1. -/
def batch_c1 : List (Nat × List (PathData Int)) :=
  [(0, [{ observations := [0, 0], actions := [0, 0], rewards := [0, 0],
          dones := [false, true], env_infos := [0, 0], agent_infos := [0, 0] }])]

lemma balanced_empty {α : Type} : balancedPath (emptyPathData α) := by
  simp [balancedPath, emptyPathData]

lemma balanced_append {α : Type} {p : PathData α} {tr : Transition α}
    (h : balancedPath p) : balancedPath (appendTransition p tr) := by
  obtain ⟨h1, h2, h3, h4, h5⟩ := h
  simp [balancedPath, appendTransition, h1, h2, h3, h4, h5]

lemma append_path_length {α : Type} (p : PathData α) (tr : Transition α) :
    path_length (appendTransition p tr) = path_length p + 1 := by
  simp [path_length, appendTransition]

lemma append_dones_getLast {α : Type} (p : PathData α) (tr : Transition α) :
    (appendTransition p tr).dones.getLast? = some tr.done := by
  simp [appendTransition]

lemma append_dones_all {α : Type} {p : PathData α} {tr : Transition α}
    (h : p.dones.all (fun d => !d) = true) (htr : tr.done = false) :
    (appendTransition p tr).dones.all (fun d => !d) = true := by
  simp [appendTransition, List.all_append, h, htr]

lemma empty_dones_all {α : Type} :
    (emptyPathData α).dones.all (fun d => !d) = true := rfl

lemma current_running_good {α : Type} {c : SamplerCore α}
    (h : ∀ o ∈ c.running_paths, goodRunning o) (i : Nat) :
    balancedPath (current_running c i) ∧
      (current_running c i).dones.all (fun d => !d) = true := by
  unfold current_running
  cases hg : c.running_paths.get? i with
  | none => exact ⟨balanced_empty, empty_dones_all⟩
  | some o =>
    cases o with
    | none => exact ⟨balanced_empty, empty_dones_all⟩
    | some p =>
      have hmem : some p ∈ c.running_paths := List.get?_mem hg
      exact h (some p) hmem p rfl

lemma current_running_opt {α : Type} (c : SamplerCore α) (i : Nat) :
    path_length (current_running c i) =
      opt_length ((c.running_paths.get? i).getD none) := by
  unfold current_running
  cases hg : c.running_paths.get? i with
  | none => simp [opt_length, path_length, emptyPathData]
  | some o =>
    cases o with
    | none => simp [opt_length, path_length, emptyPathData]
    | some p => simp [opt_length]

lemma good_set {α : Type} {P : Option (PathData α) → Prop}
    {l : List (Option (PathData α))} (h : ∀ o ∈ l, P o) (i : Nat)
    {v : Option (PathData α)} (hv : P v) : ∀ o ∈ l.set i v, P o := by
  intro o ho
  rcases List.mem_or_eq_of_mem_set ho with hmem | heq
  · exact h o hmem
  · exact heq ▸ hv

lemma running_count_set {α : Type} :
    ∀ (l : List (Option (PathData α))) (i : Nat) (v : Option (PathData α)),
      i < l.length →
      running_count (l.set i v) + opt_length ((l.get? i).getD none) =
        running_count l + opt_length v := by
  intro l
  induction l with
  | nil => intro i v h; simp at h
  | cons a rest ih =>
    intro i v h
    cases i with
    | zero => simp [running_count]; omega
    | succ j =>
      have hj : j < rest.length := by simpa using h
      have := ih j v hj
      simp only [List.set, List.get?, running_count, List.map_cons, List.sum_cons] at *
      omega

lemma append_to_slot_keys {α : Type} (ps : List (Nat × List (PathData α)))
    (idx : Nat) (p : PathData α) :
    (append_to_slot ps idx p).map Prod.fst = ps.map Prod.fst := by
  induction ps with
  | nil => rfl
  | cons e rest ih =>
    simp only [append_to_slot, List.map_cons] at *
    by_cases h : e.1 = idx <;> simp [h, ih]

lemma append_to_slot_good {α : Type} {G : PathData α → Prop}
    {ps : List (Nat × List (PathData α))} (h : ∀ e ∈ ps, ∀ q ∈ e.2, G q)
    (idx : Nat) {p : PathData α} (hp : G p) :
    ∀ e ∈ append_to_slot ps idx p, ∀ q ∈ e.2, G q := by
  intro e he q hq
  rcases List.mem_map.mp he with ⟨a, ha, rfl⟩
  by_cases hcase : a.1 = idx
  · simp only [hcase, if_pos rfl] at hq
    rcases List.mem_append.mp hq with hq' | hq'
    · exact h a ha q hq'
    · rcases List.mem_singleton.mp hq' with rfl
      exact hp
  · simp only [if_neg hcase] at hq
    exact h a ha q hq

lemma append_to_slot_nil {α : Type} (idx : Nat) (p : PathData α) :
    append_to_slot ([] : List (Nat × List (PathData α))) idx p = [] := rfl

lemma append_to_slot_cons {α : Type} (e : Nat × List (PathData α))
    (rest : List (Nat × List (PathData α))) (idx : Nat) (p : PathData α) :
    append_to_slot (e :: rest) idx p =
      (if e.1 = idx then (e.1, e.2 ++ [p]) else e) :: append_to_slot rest idx p := rfl

lemma batch_count_nil {α : Type} :
    batch_count ([] : List (Nat × List (PathData α))) = 0 := rfl

lemma batch_count_cons {α : Type} (e : Nat × List (PathData α))
    (rest : List (Nat × List (PathData α))) :
    batch_count (e :: rest) = slot_count e.2 + batch_count rest := by
  simp [batch_count]

lemma slot_count_append {α : Type} (l : List (PathData α)) (p : PathData α) :
    slot_count (l ++ [p]) = slot_count l + path_length p := by
  simp [slot_count]

lemma append_to_slot_not_mem {α : Type} (idx : Nat) (p : PathData α) :
    ∀ ps : List (Nat × List (PathData α)),
      idx ∉ ps.map Prod.fst → append_to_slot ps idx p = ps := by
  intro ps
  induction ps with
  | nil => intro _; rfl
  | cons e rest ih =>
    intro hnot
    simp only [List.map_cons, List.mem_cons, not_or] at hnot
    rw [append_to_slot_cons, if_neg (fun he => hnot.1 he.symm), ih hnot.2]

lemma append_to_slot_count {α : Type} (idx : Nat) (p : PathData α) :
    ∀ ps : List (Nat × List (PathData α)),
      (ps.map Prod.fst).Nodup → idx ∈ ps.map Prod.fst →
      batch_count (append_to_slot ps idx p) = batch_count ps + path_length p := by
  intro ps
  induction ps with
  | nil => intro _ hmem; simp at hmem
  | cons e rest ih =>
    intro hnd hmem
    simp only [List.map_cons, List.nodup_cons] at hnd
    rw [append_to_slot_cons]
    by_cases h : e.1 = idx
    · rw [if_pos h]
      have hnot : idx ∉ rest.map Prod.fst := h ▸ hnd.1
      rw [append_to_slot_not_mem idx p rest hnot]
      rw [batch_count_cons, batch_count_cons, slot_count_append]
      omega
    · rw [if_neg h]
      have hmem' : idx ∈ rest.map Prod.fst := by
        rcases List.mem_cons.mp hmem with h' | h'
        · exact absurd h'.symm h
        · exact h'
      rw [batch_count_cons, batch_count_cons, ih hnd.2 hmem']
      omega

lemma append_to_slot_lookup_ne {α : Type} {i idx : Nat} (h : i ≠ idx)
    (p : PathData α) :
    ∀ ps : List (Nat × List (PathData α)),
      List.lookup i (append_to_slot ps idx p) = List.lookup i ps := by
  intro ps
  induction ps with
  | nil => rfl
  | cons e rest ih =>
    obtain ⟨k, v⟩ := e
    rw [append_to_slot_cons]
    by_cases hc : k = idx
    · have hb : (i == k) = false := by
        subst hc; simpa using h
      rw [if_pos hc]
      simp [List.lookup_cons, hb, ih]
    · rw [if_neg hc]
      cases hib : (i == k) with
      | true => simp [List.lookup_cons, hib]
      | false => simp [List.lookup_cons, hib, ih]

lemma goodRunning_none {α : Type} : goodRunning (none : Option (PathData α)) := by
  intro p hp
  exact absurd hp (by simp)

lemma opt_length_none {α : Type} : opt_length (none : Option (PathData α)) = 0 := rfl

lemma opt_length_some {α : Type} (p : PathData α) :
    opt_length (some p) = path_length p := rfl

lemma pt_balanced {α : Type} {c : SamplerCore α} (h : coreBalanced c)
    (x : Nat × Transition α) : coreBalanced (process_transition c x) := by
  obtain ⟨hrun, hpaths⟩ := h
  have hcur := current_running_good hrun x.1
  have hbal2 : balancedPath (next_running c x) := balanced_append hcur.1
  unfold process_transition
  split
  next hd =>
    refine ⟨good_set hrun x.1 goodRunning_none, ?_⟩
    refine append_to_slot_good hpaths x.1 ⟨hbal2, ?_⟩
    show (next_running c x).dones.getLast? = some true
    rw [show next_running c x = appendTransition (current_running c x.1) x.2 from rfl,
      append_dones_getLast, hd]
  next hd =>
    have hd' : x.2.done = false := by
      cases hdd : x.2.done
      · rfl
      · exact absurd hdd hd
    refine ⟨?_, hpaths⟩
    refine good_set hrun x.1 ?_
    intro p hp
    cases hp
    exact ⟨hbal2, append_dones_all hcur.2 hd'⟩

lemma pt_keys {α : Type} (c : SamplerCore α) (x : Nat × Transition α) :
    (process_transition c x).paths.map Prod.fst = c.paths.map Prod.fst := by
  unfold process_transition
  split
  · exact append_to_slot_keys c.paths x.1 (next_running c x)
  · rfl

lemma pt_len {α : Type} (c : SamplerCore α) (x : Nat × Transition α) :
    (process_transition c x).running_paths.length = c.running_paths.length := by
  unfold process_transition
  split <;> simp

lemma pt_count {α : Type} {n : Nat} {c : SamplerCore α} {x : Nat × Transition α}
    (hk : c.paths.map Prod.fst = List.range n) (hx : x.1 < n)
    (hc : batch_count c.paths = c.n_samples) :
    batch_count (process_transition c x).paths = (process_transition c x).n_samples := by
  unfold process_transition
  split
  · show batch_count (append_to_slot c.paths x.1 (next_running c x)) =
      c.n_samples + (next_running c x).rewards.length
    rw [append_to_slot_count x.1 (next_running c x) c.paths
      (by rw [hk]; exact List.nodup_range n)
      (by rw [hk]; exact List.mem_range.mpr hx), hc]
    rfl
  · exact hc

lemma pt_gen {α : Type} {c : SamplerCore α} {x : Nat × Transition α}
    (hx : x.1 < c.running_paths.length) :
    (process_transition c x).n_samples +
        running_count (process_transition c x).running_paths =
      c.n_samples + running_count c.running_paths + 1 := by
  have hset_none := running_count_set c.running_paths x.1 none hx
  have hset_some := running_count_set c.running_paths x.1 (some (next_running c x)) hx
  have hcur := current_running_opt c x.1
  have hlen : path_length (next_running c x) = path_length (current_running c x.1) + 1 :=
    append_path_length (current_running c x.1) x.2
  have hrew : path_length (next_running c x) = (next_running c x).rewards.length := rfl
  rw [opt_length_none] at hset_none
  rw [opt_length_some] at hset_some
  unfold process_transition
  split
  · show c.n_samples + (next_running c x).rewards.length +
      running_count (c.running_paths.set x.1 none) = _
    omega
  · show c.n_samples +
      running_count (c.running_paths.set x.1 (some (next_running c x))) = _
    omega

lemma pt_mono {α : Type} (c : SamplerCore α) (x : Nat × Transition α) :
    c.n_samples ≤ (process_transition c x).n_samples := by
  unfold process_transition
  split
  · exact Nat.le_add_right _ _
  · exact Nat.le_refl _

lemma pt_lookup {α : Type} {c : SamplerCore α} {x : Nat × Transition α} {j : Nat}
    (h : x.1 = j → x.2.done = false) :
    List.lookup j (process_transition c x).paths = List.lookup j c.paths := by
  unfold process_transition
  split
  next hd =>
    have hne : j ≠ x.1 := by
      intro he
      rw [h he.symm] at hd
      exact Bool.noConfusion hd
    exact append_to_slot_lookup_ne hne (next_running c x) c.paths
  next _ => rfl

lemma pa_balanced {α : Type} (l : List (Transition α)) :
    ∀ (i : Nat) (c : SamplerCore α),
      coreBalanced c → coreBalanced (process_all i l c) := by
  induction l with
  | nil => intro i c h; exact h
  | cons tr rest ih =>
    intro i c h
    simp only [process_all]
    exact ih (i + 1) _ (pt_balanced h (i, tr))

lemma pa_counted_gen {α : Type} {n : Nat} (l : List (Transition α)) :
    ∀ (i : Nat) (c : SamplerCore α), coreCounted n c → i + l.length ≤ n →
      coreCounted n (process_all i l c) ∧
      (process_all i l c).n_samples + running_count (process_all i l c).running_paths
        = c.n_samples + running_count c.running_paths + l.length := by
  induction l with
  | nil =>
    intro i c h _
    exact ⟨h, by simp [process_all]⟩
  | cons tr rest ih =>
    intro i c h hle
    obtain ⟨hk, hlen, hc⟩ := h
    have hi : i < n := by
      simp only [List.length_cons] at hle
      omega
    have h1 : coreCounted n (process_transition c (i, tr)) := by
      refine ⟨?_, ?_, ?_⟩
      · rw [pt_keys]; exact hk
      · rw [pt_len]; exact hlen
      · exact pt_count hk hi hc
    have h2 := pt_gen (c := c) (x := (i, tr)) (by rw [hlen]; exact hi)
    have h3 := ih (i + 1) (process_transition c (i, tr)) h1
      (by simp only [List.length_cons] at hle ⊢; omega)
    simp only [process_all]
    refine ⟨h3.1, ?_⟩
    have h4 := h3.2
    simp only [List.length_cons]
    omega

lemma pa_mono {α : Type} (l : List (Transition α)) :
    ∀ (i : Nat) (c : SamplerCore α), c.n_samples ≤ (process_all i l c).n_samples := by
  induction l with
  | nil => intro i c; exact Nat.le_refl _
  | cons tr rest ih =>
    intro i c
    simp only [process_all]
    exact Nat.le_trans (pt_mono c (i, tr)) (ih (i + 1) _)

lemma pa_keys {α : Type} (l : List (Transition α)) :
    ∀ (i : Nat) (c : SamplerCore α),
      (process_all i l c).paths.map Prod.fst = c.paths.map Prod.fst := by
  induction l with
  | nil => intro i c; rfl
  | cons tr rest ih =>
    intro i c
    simp only [process_all]
    rw [ih (i + 1) _, pt_keys]

lemma pa_lookup {α : Type} {j : Nat} (l : List (Transition α)) :
    ∀ (i : Nat) (c : SamplerCore α),
      (∀ k tr, l.get? k = some tr → i + k = j → tr.done = false) →
      List.lookup j (process_all i l c).paths = List.lookup j c.paths := by
  induction l with
  | nil => intro i c _; rfl
  | cons tr rest ih =>
    intro i c hl
    simp only [process_all]
    have h1 := ih (i + 1) (process_transition c (i, tr))
      (fun k tr' hk hik => hl (k + 1) tr' (by simpa using hk) (by omega))
    have h2 := pt_lookup (c := c) (x := (i, tr)) (j := j)
      (fun he => hl 0 tr rfl (by omega))
    rw [h1, h2]

lemma run_one_step_core {α : Type} (w : Nat → List (Transition α)) (t : Nat)
    (st : SamplerState α) :
    (run_one_step w t st).core = process_all 0 (w t) st.core := rfl

lemma run_one_step_events {α : Type} (w : Nat → List (Transition α)) (t : Nat)
    (st : SamplerState α) :
    (run_one_step w t st).events =
      st.events ++ [SamplerEvent.get_actions t, SamplerEvent.env_step t] := rfl

lemma sample_loop_invariant {α : Type} (w : Nat → List (Transition α)) (bs : Nat)
    (Q : SamplerState α → Nat → Prop)
    (hQ : ∀ t s, Q s t → Q (run_one_step w t s) (t + 1)) :
    ∀ (fuel t : Nat) (st st' : SamplerState α) (T : Nat),
      Q st t → sample_loop w bs fuel t st = some (st', T) → Q st' T := by
  intro fuel
  induction fuel with
  | zero =>
    intro t st st' T hq hrun
    simp only [sample_loop] at hrun
    split at hrun
    · exact absurd hrun (by simp)
    · cases hrun
      exact hq
  | succ fuel ih =>
    intro t st st' T hq hrun
    simp only [sample_loop] at hrun
    split at hrun
    · exact ih (t + 1) _ st' T (hQ t st hq) hrun
    · cases hrun
      exact hq

lemma sample_loop_exit {α : Type} (w : Nat → List (Transition α)) (bs : Nat) :
    ∀ (fuel t : Nat) (st st' : SamplerState α) (T : Nat),
      sample_loop w bs fuel t st = some (st', T) → bs ≤ st'.core.n_samples := by
  intro fuel
  induction fuel with
  | zero =>
    intro t st st' T hrun
    simp only [sample_loop] at hrun
    split at hrun
    · exact absurd hrun (by simp)
    next hge =>
      cases hrun
      omega
  | succ fuel ih =>
    intro t st st' T hrun
    simp only [sample_loop] at hrun
    split at hrun
    · exact ih (t + 1) _ st' T hrun
    next hge =>
      cases hrun
      omega

lemma batch_count_empty_slots {α : Type} : ∀ l : List Nat,
    batch_count (l.map (fun i => (i, ([] : List (PathData α))))) = 0 := by
  intro l
  induction l with
  | nil => rfl
  | cons a rest ih =>
    simpa [batch_count_cons, slot_count] using ih

lemma map_fst_pairs {α : Type} : ∀ l : List Nat,
    (l.map (fun i => (i, ([] : List (PathData α))))).map Prod.fst = l := by
  intro l
  induction l with
  | nil => rfl
  | cons a rest ih => simp only [List.map_cons, ih]

lemma init_keys {α : Type} (n : Nat) :
    (init_state α n).core.paths.map Prod.fst = List.range n := by
  show ((List.range n).map (fun i => (i, ([] : List (PathData α))))).map Prod.fst
    = List.range n
  exact map_fst_pairs (List.range n)

lemma init_counted {α : Type} (n : Nat) : coreCounted n (init_state α n).core := by
  refine ⟨init_keys n, ?_, ?_⟩
  · simp [init_state]
  · show batch_count ((List.range n).map (fun i => (i, ([] : List (PathData α))))) = 0
    exact batch_count_empty_slots (List.range n)

lemma init_balanced {α : Type} (n : Nat) : coreBalanced (init_state α n).core := by
  constructor
  · intro o ho
    have ho' : o = none := List.eq_of_mem_replicate ho
    subst ho'
    exact goodRunning_none
  · intro e he p hp
    rcases List.mem_map.mp he with ⟨a, _, rfl⟩
    simp at hp

lemma init_rc {α : Type} (n : Nat) :
    running_count (init_state α n).core.running_paths = 0 := by
  show running_count (List.replicate n none) = 0
  simp [running_count, List.map_replicate, opt_length_none, List.sum_replicate]

lemma lookup_empty_slots {α : Type} : ∀ (l : List Nat) (i : Nat), i ∈ l →
    List.lookup i (l.map (fun j => (j, ([] : List (PathData α))))) = some [] := by
  intro l
  induction l with
  | nil => intro i h; simp at h
  | cons a rest ih =>
    intro i h
    by_cases hia : i = a
    · subst hia
      simp [List.lookup_cons]
    · have hb : (i == a) = false := by simpa using hia
      have hmem : i ∈ rest := by
        rcases List.mem_cons.mp h with h' | h'
        · exact absurd h' hia
        · exact h'
      simp [List.lookup_cons, hb, ih i hmem]

lemma stream_count_succ {α : Type} (w : Nat → List (Transition α)) (t : Nat) :
    stream_count w (t + 1) = stream_count w t + (w t).length := by
  simp [stream_count, List.range_succ]

lemma path_length_truncate {α : Type} (p : PathData α) (k : Nat) :
    path_length (truncate_path p k) = min k (path_length p) := by
  simp [path_length, truncate_path]

lemma truncate_slot_nil {α : Type} (b : Nat) :
    truncate_slot b ([] : List (PathData α)) = ([], b) := rfl

lemma truncate_slot_cons {α : Type} (b : Nat) (p : PathData α)
    (ps : List (PathData α)) :
    truncate_slot b (p :: ps) =
      if b = 0 then ([], 0)
      else if path_length p ≤ b then
        (p :: (truncate_slot (b - path_length p) ps).1,
          (truncate_slot (b - path_length p) ps).2)
      else ([truncate_path p b], 0) := rfl

lemma slot_count_nil {α : Type} : slot_count ([] : List (PathData α)) = 0 := rfl

lemma slot_count_cons {α : Type} (p : PathData α) (ps : List (PathData α)) :
    slot_count (p :: ps) = path_length p + slot_count ps := by
  simp [slot_count]

lemma truncate_slot_self {α : Type} : ∀ (l : List (PathData α)) (b : Nat),
    truncate_slot b (truncate_slot b l).1 = truncate_slot b l := by
  intro l
  induction l with
  | nil => intro b; rfl
  | cons p ps ih =>
    intro b
    rw [truncate_slot_cons]
    by_cases hb : b = 0
    · rw [if_pos hb]
      subst hb
      rfl
    · rw [if_neg hb]
      by_cases hp : path_length p ≤ b
      · rw [if_pos hp]
        rw [truncate_slot_cons, if_neg hb, if_pos hp, ih (b - path_length p)]
      · rw [if_neg hp]
        have hpl : path_length (truncate_path p b) = b := by
          rw [path_length_truncate]
          omega
        rw [truncate_slot_cons, if_neg hb, hpl, if_pos (Nat.le_refl b), Nat.sub_self,
          truncate_slot_nil]

lemma truncate_batch_nil {α : Type} (b : Nat) :
    truncate_batch b ([] : List (Nat × List (PathData α))) = [] := rfl

lemma truncate_batch_cons {α : Type} (b : Nat) (e : Nat × List (PathData α))
    (rest : List (Nat × List (PathData α))) :
    truncate_batch b (e :: rest) =
      (e.1, (truncate_slot b e.2).1) :: truncate_batch (truncate_slot b e.2).2 rest := rfl

lemma truncate_batch_idem {α : Type} :
    ∀ (batch : List (Nat × List (PathData α))) (b : Nat),
      truncate_batch b (truncate_batch b batch) = truncate_batch b batch := by
  intro batch
  induction batch with
  | nil => intro b; rfl
  | cons e rest ih =>
    intro b
    rw [truncate_batch_cons, truncate_batch_cons, truncate_slot_self e.2 b,
      ih (truncate_slot b e.2).2]

lemma truncate_slot_bound {α : Type} : ∀ (l : List (PathData α)) (b : Nat),
    (truncate_slot b l).2 + slot_count (truncate_slot b l).1 ≤ b := by
  intro l
  induction l with
  | nil =>
    intro b
    rw [truncate_slot_nil, slot_count_nil]
    omega
  | cons p ps ih =>
    intro b
    rw [truncate_slot_cons]
    by_cases hb : b = 0
    · rw [if_pos hb, slot_count_nil]
      omega
    · rw [if_neg hb]
      by_cases hp : path_length p ≤ b
      · rw [if_pos hp, slot_count_cons]
        have := ih (b - path_length p)
        omega
      · rw [if_neg hp, slot_count_cons, slot_count_nil, path_length_truncate]
        omega

lemma truncate_batch_bound {α : Type} :
    ∀ (batch : List (Nat × List (PathData α))) (b : Nat),
      batch_count (truncate_batch b batch) ≤ b := by
  intro batch
  induction batch with
  | nil =>
    intro b
    rw [truncate_batch_nil, batch_count_nil]
    omega
  | cons e rest ih =>
    intro b
    rw [truncate_batch_cons, batch_count_cons]
    have h0 : slot_count ((e.1, (truncate_slot b e.2).1)).2
        = slot_count (truncate_slot b e.2).1 := rfl
    have h1 := ih (truncate_slot b e.2).2
    have h2 := truncate_slot_bound e.2 b
    omega

lemma start_slots_length (n_envs meta_batch_size : Nat)
    (h2 : n_envs % meta_batch_size = 0) :
    (start_slots n_envs meta_batch_size).length = n_envs := by
  unfold start_slots
  rw [List.length_flatten, List.map_map]
  have hmap : (List.range meta_batch_size).map
      (List.length ∘ fun task => List.replicate (n_envs / meta_batch_size) task)
      = (List.range meta_batch_size).map (fun _ => n_envs / meta_batch_size) := by
    apply List.map_congr_left
    intro a _
    simp
  rw [hmap, List.map_const', List.sum_replicate, List.length_range, smul_eq_mul]
  exact Nat.mul_div_cancel' (Nat.dvd_of_mod_eq_zero h2)

/-- Claim C2: for every `n_envs` and positive `meta_batch_size` with
`n_envs % meta_batch_size != 0` — and likewise whenever
`n_envs < meta_batch_size` — `start_worker` fails with
ConfigurationError (the spec's name for the source's failed `assert`,
lines 51-54), so the `VecEnvExecutor` of line 69 is never constructed:
the call produces no `StartResult`. -/
theorem claim_C2_invalid_config_raises (n_envs meta_batch_size : Nat)
    (seed0 : Option Nat) (mpl : Nat) (h0 : 0 < meta_batch_size)
    (h : n_envs % meta_batch_size ≠ 0 ∨ n_envs < meta_batch_size) :
    start_worker n_envs meta_batch_size seed0 mpl =
      Except.error StartError.configurationError := by
  unfold start_worker
  split_ifs with h1 h2 h3
  · rfl
  · exact absurd h2 (by omega)
  · rfl
  · rcases h with h | h
    · exact absurd h h3
    · exact absurd h h1

/-- Witness for claim C2 at `n_envs = 3`, `meta_batch_size = 2`. -/
theorem claim_C2_witness :
    start_worker 3 2 (some 0) 7 = Except.error StartError.configurationError :=
  claim_C2_invalid_config_raises 3 2 (some 0) 7 (by decide) (Or.inl (by decide))

/-- Claim C5: under a valid configuration, `start_worker` constructs one
slot per vectorized environment; if a global seed `s` is configured it
issues exactly the seeding calls `(i, s + i)` for every slot
`i < n_envs` in slot order, and if no global seed is configured it
issues no seeding call at all (lines 63-67). -/
theorem claim_C5_deterministic_seeding (n_envs meta_batch_size : Nat)
    (seed0 : Option Nat) (mpl : Nat) (h0 : 0 < meta_batch_size)
    (h1 : meta_batch_size ≤ n_envs) (h2 : n_envs % meta_batch_size = 0) :
    ∃ r : StartResult,
      start_worker n_envs meta_batch_size seed0 mpl = Except.ok r ∧
      r.vec_env_slots.length = n_envs ∧
      (∀ s, seed0 = some s →
        r.seed_calls = (List.range n_envs).map (fun i => (i, s + i))) ∧
      (seed0 = none → r.seed_calls = []) := by
  refine ⟨{ vec_env_slots := start_slots n_envs meta_batch_size,
            seed_calls := start_seed_calls n_envs meta_batch_size seed0,
            max_path_length := mpl }, ?_, ?_, ?_, ?_⟩
  · unfold start_worker
    rw [if_neg (by omega : ¬ n_envs < meta_batch_size),
      if_neg (by omega : ¬ meta_batch_size = 0),
      if_neg (by simp [h2] : ¬ n_envs % meta_batch_size ≠ 0)]
  · exact start_slots_length n_envs meta_batch_size h2
  · intro s hs
    subst hs
    show (List.range (start_slots n_envs meta_batch_size).length).map (fun i => (i, s + i))
      = (List.range n_envs).map (fun i => (i, s + i))
    rw [start_slots_length n_envs meta_batch_size h2]
  · intro hs
    subst hs
    rfl

/-- Witness for claim C5 at `n_envs = 4`, `meta_batch_size = 2`,
global seed 10. -/
theorem claim_C5_witness :
    ∃ r : StartResult,
      start_worker 4 2 (some 10) 7 = Except.ok r ∧
      r.vec_env_slots.length = 4 ∧
      (∀ s, (some 10 : Option Nat) = some s →
        r.seed_calls = (List.range 4).map (fun i => (i, s + i))) ∧
      ((some 10 : Option Nat) = none → r.seed_calls = []) :=
  claim_C5_deterministic_seeding 4 2 (some 10) 7 (by decide) (by decide) (by decide)

/-- Claim C7: when `batch_size` is omitted (`None`), `obtain_samples`
behaves exactly as when called with
`episode_per_task * max_path_length * n_envs` (lines 110-111 of the
source). -/
theorem claim_C7_default_batch_size (α : Type)
    (n_envs episode_per_task max_path_length : Nat)
    (w : Nat → List (Transition α)) (whole_paths : Bool) (fuel : Nat) :
    obtain_samples α n_envs episode_per_task max_path_length w none whole_paths fuel =
      obtain_samples α n_envs episode_per_task max_path_length w
        (some (episode_per_task * max_path_length * n_envs)) whole_paths fuel := rfl

/-- Claim C9: truncation is idempotent — truncating a batch to a target
twice yields the same batch as truncating it once, for every batch and
every target. -/
theorem claim_C9_truncation_idempotent (α : Type)
    (batch : List (Nat × List (PathData α))) (target : Nat) :
    truncate_paths (truncate_paths batch target) target =
      truncate_paths batch target :=
  truncate_batch_idem batch target

/-- Claim C3: every completed path placed in the batch by the collection
loop has its observations, actions, rewards and dones sequences of equal
length (indeed all six sequences, infos included), and the last entry of
its dones sequence is `true`; moreover the per-slot running accumulator
keeps all six sequences at equal length at every point of the loop,
witnessed by preservation of the invariant across every single
transition processed. -/
theorem claim_C3_paths_well_formed (α : Type)
    (n_envs episode_per_task max_path_length : Nat)
    (w : Nat → List (Transition α)) (batch_size : Option Nat) (fuel : Nat)
    (st : SamplerState α) (T : Nat)
    (hrun : obtain_samples_run α n_envs episode_per_task max_path_length w
      batch_size fuel = some (st, T)) :
    (∀ e ∈ st.core.paths, ∀ p ∈ e.2,
      balancedPath p ∧ p.dones.getLast? = some true) ∧
    (∀ (c : SamplerCore α) (x : Nat × Transition α),
      coreBalanced c → coreBalanced (process_transition c x)) := by
  have key := sample_loop_invariant w
    (resolve_batch_size episode_per_task max_path_length n_envs batch_size)
    (fun s _ => coreBalanced s.core)
    (fun t s hq => by
      show coreBalanced (run_one_step w t s).core
      rw [run_one_step_core]
      exact pa_balanced (w t) 0 s.core hq)
    fuel 0 (init_state α n_envs) st T (init_balanced n_envs) hrun
  exact ⟨fun e he p hp => key.2 e he p hp, fun c x h => pt_balanced h x⟩

/-- Witness for claim C3 on the two-slot behaviour `w_ex`. -/
theorem claim_C3_witness :
    (∀ e ∈ st_ex.core.paths, ∀ p ∈ e.2,
      balancedPath p ∧ p.dones.getLast? = some true) ∧
    (∀ (c : SamplerCore Int) (x : Nat × Transition Int),
      coreBalanced c → coreBalanced (process_transition c x)) :=
  claim_C3_paths_well_formed Int 2 1 1 w_ex (some 1) 2 st_ex 2 (by decide)

/-- Claim C4: on a run of the collection loop, the batch's total
transition count equals the final `n_samples`, which is at least the
(resolved) `batch_size`; `n_samples` starts at 0 in the initial state of
every call and never decreases at any processed transition. -/
theorem claim_C4_budget_accounting (α : Type)
    (n_envs episode_per_task max_path_length : Nat)
    (w : Nat → List (Transition α)) (batch_size : Option Nat) (fuel : Nat)
    (st : SamplerState α) (T : Nat)
    (hw : ∀ t, (w t).length = n_envs)
    (hrun : obtain_samples_run α n_envs episode_per_task max_path_length w
      batch_size fuel = some (st, T)) :
    batch_count st.core.paths = st.core.n_samples ∧
    resolve_batch_size episode_per_task max_path_length n_envs batch_size
      ≤ st.core.n_samples ∧
    (init_state α n_envs).core.n_samples = 0 ∧
    (∀ (c : SamplerCore α) (x : Nat × Transition α),
      c.n_samples ≤ (process_transition c x).n_samples) := by
  have key := sample_loop_invariant w
    (resolve_batch_size episode_per_task max_path_length n_envs batch_size)
    (fun s _ => coreCounted n_envs s.core)
    (fun t s hq => by
      show coreCounted n_envs (run_one_step w t s).core
      rw [run_one_step_core]
      exact (pa_counted_gen (w t) 0 s.core hq (by rw [hw t]; omega)).1)
    fuel 0 (init_state α n_envs) st T (init_counted n_envs) hrun
  refine ⟨key.2.2, ?_, rfl, fun c x => pt_mono c x⟩
  exact sample_loop_exit w
    (resolve_batch_size episode_per_task max_path_length n_envs batch_size)
    fuel 0 (init_state α n_envs) st T hrun

/-- Witness for claim C4 on the two-slot behaviour `w_ex`. -/
theorem claim_C4_witness :
    batch_count st_ex.core.paths = st_ex.core.n_samples ∧
    resolve_batch_size 1 1 2 (some 1) ≤ st_ex.core.n_samples ∧
    (init_state Int 2).core.n_samples = 0 ∧
    (∀ (c : SamplerCore Int) (x : Nat × Transition Int),
      c.n_samples ≤ (process_transition c x).n_samples) :=
  claim_C4_budget_accounting Int 2 1 1 w_ex (some 1) 2 st_ex 2
    (fun t => by by_cases h : t = 0 <;> simp [w_ex, h]) (by decide)

/-- Claim C6: when the budget is satisfied and the loop exits, the
transitions of the still-in-progress episodes are exactly the residue
left in the running accumulators: the batch accounts for `n_samples`
transitions, while `n_samples` plus the count buffered in the running
accumulators equals every transition the stream delivered over the `T`
executed iterations — so no entry of an unterminated episode is in the
batch; in addition every surviving running accumulator has all `done`
entries false (its episode has indeed not terminated). -/
theorem claim_C6_in_progress_dropped (α : Type)
    (n_envs episode_per_task max_path_length : Nat)
    (w : Nat → List (Transition α)) (batch_size : Option Nat) (fuel : Nat)
    (st : SamplerState α) (T : Nat)
    (hw : ∀ t, (w t).length = n_envs)
    (hrun : obtain_samples_run α n_envs episode_per_task max_path_length w
      batch_size fuel = some (st, T)) :
    batch_count st.core.paths = st.core.n_samples ∧
    st.core.n_samples + running_count st.core.running_paths = stream_count w T ∧
    (∀ o ∈ st.core.running_paths, ∀ p, o = some p →
      p.dones.all (fun d => !d) = true) := by
  have key := sample_loop_invariant w
    (resolve_batch_size episode_per_task max_path_length n_envs batch_size)
    (fun s t => coreCounted n_envs s.core ∧
      s.core.n_samples + running_count s.core.running_paths = stream_count w t)
    (fun t s hq => by
      obtain ⟨h1, h2⟩ := hq
      have h3 := pa_counted_gen (w t) 0 s.core h1 (by rw [hw t]; omega)
      show coreCounted n_envs (run_one_step w t s).core ∧
        (run_one_step w t s).core.n_samples +
          running_count (run_one_step w t s).core.running_paths = stream_count w (t + 1)
      rw [run_one_step_core]
      refine ⟨h3.1, ?_⟩
      rw [stream_count_succ]
      omega)
    fuel 0 (init_state α n_envs) st T
    ⟨init_counted n_envs, by rw [init_rc]; rfl⟩ hrun
  have key2 := sample_loop_invariant w
    (resolve_batch_size episode_per_task max_path_length n_envs batch_size)
    (fun s _ => coreBalanced s.core)
    (fun t s hq => by
      show coreBalanced (run_one_step w t s).core
      rw [run_one_step_core]
      exact pa_balanced (w t) 0 s.core hq)
    fuel 0 (init_state α n_envs) st T (init_balanced n_envs) hrun
  exact ⟨key.1.2.2, key.2, fun o ho p hp => (key2.1 o ho p hp).2⟩

/-- Witness for claim C6 on the two-slot behaviour `w_ex`: slot 1's
in-progress episode of length 2 stays in the running accumulator and is
excluded from the batch's transition count. -/
theorem claim_C6_witness :
    batch_count st_ex.core.paths = st_ex.core.n_samples ∧
    st_ex.core.n_samples + running_count st_ex.core.running_paths
      = stream_count w_ex 2 ∧
    (∀ o ∈ st_ex.core.running_paths, ∀ p, o = some p →
      p.dones.all (fun d => !d) = true) :=
  claim_C6_in_progress_dropped Int 2 1 1 w_ex (some 1) 2 st_ex 2
    (fun t => by by_cases h : t = 0 <;> simp [w_ex, h]) (by decide)

/-- Claim C8: on every run of the collection loop, `policy.reset` is
invoked exactly once, with the all-true done mask over the `n_envs`
slots, and it is the very first collaborator call — in particular it
precedes the first environment step and is never repeated inside the
loop, whichever slots finish episodes. -/
theorem claim_C8_policy_reset_once (α : Type)
    (n_envs episode_per_task max_path_length : Nat)
    (w : Nat → List (Transition α)) (batch_size : Option Nat) (fuel : Nat)
    (st : SamplerState α) (T : Nat)
    (hrun : obtain_samples_run α n_envs episode_per_task max_path_length w
      batch_size fuel = some (st, T)) :
    st.events.filter is_policy_reset
      = [SamplerEvent.policy_reset (List.replicate n_envs true)] ∧
    st.events.head? = some (SamplerEvent.policy_reset (List.replicate n_envs true)) := by
  have key := sample_loop_invariant w
    (resolve_batch_size episode_per_task max_path_length n_envs batch_size)
    (fun s _ => ∃ rest,
      s.events = SamplerEvent.policy_reset (List.replicate n_envs true) :: rest ∧
      rest.filter is_policy_reset = [])
    (fun t s hq => by
      obtain ⟨rest, hev, hf⟩ := hq
      refine ⟨rest ++ [SamplerEvent.get_actions t, SamplerEvent.env_step t], ?_, ?_⟩
      · rw [run_one_step_events, hev]
        rfl
      · rw [List.filter_append, hf]
        rfl)
    fuel 0 (init_state α n_envs) st T ⟨[], rfl, rfl⟩ hrun
  obtain ⟨rest, hev, hf⟩ := key
  rw [hev]
  constructor
  · show (SamplerEvent.policy_reset (List.replicate n_envs true) :: rest).filter
      is_policy_reset = _
    rw [List.filter_cons]
    simp [is_policy_reset, hf]
  · rfl

/-- Witness for claim C8 on the two-slot behaviour `w_ex`. -/
theorem claim_C8_witness :
    st_ex.events.filter is_policy_reset
      = [SamplerEvent.policy_reset (List.replicate 2 true)] ∧
    st_ex.events.head? = some (SamplerEvent.policy_reset (List.replicate 2 true)) :=
  claim_C8_policy_reset_once Int 2 1 1 w_ex (some 1) 2 st_ex 2 (by decide)

/-- Claim C10: the batch built by the collection loop has an entry for
every slot index `0..n_envs-1`, with keys in ascending slot order, and a
slot whose stream never raises `done` (so it completes no episode during
the call) still has its entry present, holding the empty list. -/
theorem claim_C10_every_slot_present (α : Type)
    (n_envs episode_per_task max_path_length : Nat)
    (w : Nat → List (Transition α)) (batch_size : Option Nat) (fuel : Nat)
    (st : SamplerState α) (T : Nat)
    (hrun : obtain_samples_run α n_envs episode_per_task max_path_length w
      batch_size fuel = some (st, T)) :
    st.core.paths.map Prod.fst = List.range n_envs ∧
    (∀ i, i < n_envs → (∀ t tr, (w t).get? i = some tr → tr.done = false) →
      List.lookup i st.core.paths = some []) := by
  constructor
  · exact sample_loop_invariant w
      (resolve_batch_size episode_per_task max_path_length n_envs batch_size)
      (fun s _ => s.core.paths.map Prod.fst = List.range n_envs)
      (fun t s hq => by
        show (run_one_step w t s).core.paths.map Prod.fst = List.range n_envs
        rw [run_one_step_core, pa_keys]
        exact hq)
      fuel 0 (init_state α n_envs) st T (init_keys n_envs) hrun
  · intro i hi hno
    exact sample_loop_invariant w
      (resolve_batch_size episode_per_task max_path_length n_envs batch_size)
      (fun s _ => List.lookup i s.core.paths = some [])
      (fun t s hq => by
        show List.lookup i (run_one_step w t s).core.paths = some []
        rw [run_one_step_core,
          pa_lookup (w t) 0 s.core (fun k tr hk hik =>
            hno t tr (by rwa [show k = i by omega] at hk))]
        exact hq)
      fuel 0 (init_state α n_envs) st T
      (lookup_empty_slots (List.range n_envs) i (List.mem_range.mpr hi)) hrun

/-- Witness for claim C10 on the two-slot behaviour `w_ex`: slot 1 never
finishes an episode and its batch entry is the present-but-empty list. -/
theorem claim_C10_witness :
    st_ex.core.paths.map Prod.fst = List.range 2 ∧
    (∀ i, i < 2 → (∀ t tr, (w_ex t).get? i = some tr → tr.done = false) →
      List.lookup i st_ex.core.paths = some []) :=
  claim_C10_every_slot_present Int 2 1 1 w_ex (some 1) 2 st_ex 2 (by decide)

/-- Claim C1, counterexample to the claim as stated: with the truncation
flag left at its Python default (`whole_paths=True`), `obtain_samples`
returns the batch unmodified even when its total transition count (2
here) exceeds `batch_size` (1 here) — it is not truncated to the
budget. -/
theorem claim_C1_counterexample :
    obtain_samples_default Int 1 1 1 w_c1 (some 1) 2 = some batch_c1 ∧
    1 < batch_count batch_c1 := by
  constructor
  · decide
  · decide

/-- Claim C1 as amended: the default `whole_paths=True` returns the
batch of the collection loop unmodified; only when the caller passes
`whole_paths=False` is the batch truncated, and then its total
transition count does not exceed the resolved `batch_size`. -/
theorem claim_C1_truncation_flag (α : Type)
    (n_envs episode_per_task max_path_length : Nat)
    (w : Nat → List (Transition α)) (batch_size : Option Nat) (fuel : Nat)
    (st : SamplerState α) (T : Nat)
    (hrun : obtain_samples_run α n_envs episode_per_task max_path_length w
      batch_size fuel = some (st, T)) :
    obtain_samples α n_envs episode_per_task max_path_length w batch_size true fuel
      = some st.core.paths ∧
    obtain_samples α n_envs episode_per_task max_path_length w batch_size false fuel
      = some (truncate_paths st.core.paths
          (resolve_batch_size episode_per_task max_path_length n_envs batch_size)) ∧
    batch_count (truncate_paths st.core.paths
        (resolve_batch_size episode_per_task max_path_length n_envs batch_size))
      ≤ resolve_batch_size episode_per_task max_path_length n_envs batch_size := by
  refine ⟨?_, ?_, truncate_batch_bound st.core.paths _⟩
  · unfold obtain_samples
    rw [hrun]
    rfl
  · unfold obtain_samples
    rw [hrun]
    rfl

/-- Witness for the amended claim C1 on the two-slot behaviour `w_ex`. -/
theorem claim_C1_witness :
    obtain_samples Int 2 1 1 w_ex (some 1) true 2 = some st_ex.core.paths ∧
    obtain_samples Int 2 1 1 w_ex (some 1) false 2
      = some (truncate_paths st_ex.core.paths (resolve_batch_size 1 1 2 (some 1))) ∧
    batch_count (truncate_paths st_ex.core.paths (resolve_batch_size 1 1 2 (some 1)))
      ≤ resolve_batch_size 1 1 2 (some 1) :=
  claim_C1_truncation_flag Int 2 1 1 w_ex (some 1) 2 st_ex 2 (by decide)

end Garage
